import Mathlib

/-!
Verification of the orchestration logic of render.py (a command-line tool
that renders source code as a PDF) against its specification.

The development shallowly embeds the pure decision logic of render.py:
input resolution (glob expansion and natural sorting), include/exclude
filtering, side-by-side PDF page concatenation, the temporary-file
lifecycle of the side-by-side path, binary-content skipping, local
fetching, the overwrite prompt, and the PDF writer.  External effects
(the filesystem, the glob library, brace expansion, the HTML renderer)
are passed in as explicit environments; their outputs are arbitrary,
so every theorem quantifies over all possible external behaviour.
-/

namespace RenderPdf

/-! ## Natural sorting (natsort with ns.IGNORECASE)

The resolver calls natsorted(l, alg=ns.IGNORECASE): a stable sort keyed by
the case-folded natural key of each string, where maximal runs of ASCII
digits compare as numbers and other runs compare as case-folded text.
natsort builds tuples alternating text and number components; two keys are
compared lexicographically.  We model the key as a list of text-or-number
tokens with the lexicographic order, and the stable sort as insertion sort
(any two stable sorts with the same key agree). -/

/-- One token of a natural-sort key: a case-folded run of non-digit
characters, or the numeric value of a run of digits. -/
abbrev NatTok := Lex (List Char ⊕ Nat)

/-- Natural-sort key: tokens in order of appearance, compared lexicographically. -/
abbrev NatKey := List NatTok

/-- Numeric value of a run of ASCII digits (decimal, leading zeros allowed). -/
def digitsVal (cs : List Char) : Nat :=
  cs.foldl (fun n c => 10 * n + (c.toNat - 48)) 0

/-- Natural-sort key of a string: split into maximal runs of digits and
non-digits; digit runs become numbers, other runs are case-folded (ASCII
folding, as the keys here are file paths).  As in the natsort library the
key always starts with a text component, so a leading digit run is
preceded by an empty text chunk; this makes numbers order before text. -/
def natKey (s : String) : NatKey :=
  let toks := (s.data.splitBy (fun a b => a.isDigit == b.isDigit)).map (fun run =>
    match run with
    | [] => toLex (Sum.inl [])
    | c :: _ =>
      if c.isDigit then toLex (Sum.inr (digitsVal run))
      else toLex (Sum.inl (run.map Char.toLower)))
  match s.data with
  | [] => toks
  | c :: _ => if c.isDigit then toLex (Sum.inl []) :: toks else toks

/-- Comparison used by natsorted: keys compared lexicographically. -/
def natLe (a b : String) : Prop := natKey a ≤ natKey b

instance : DecidableRel natLe :=
  fun a b => inferInstanceAs (Decidable (natKey a ≤ natKey b))

instance : IsTotal String natLe := ⟨fun a b => le_total (natKey a) (natKey b)⟩

instance : IsTrans String natLe := ⟨fun _ _ _ => le_trans⟩

/-- Model of natsorted(l, alg=ns.IGNORECASE): a stable sort by natKey.
Insertion sort with a non-strict comparison is stable, as is the sort in
the Python library, so the two agree on every input. -/
def natsorted (l : List String) : List String := l.insertionSort natLe

/-! ## Input resolution (main, the paths and candidates stages)

render.py expands each raw pattern: a pattern starting with "http" is
appended literally (and, since the branch is not exclusive, still glob
expanded); every nonempty pattern is brace-expanded and each expansion
glob-expanded, with each glob result list natural-sorted before being
appended.  Candidate paths that are files or URLs are kept; directories
are recursively walked and the collected files natural-sorted; anything
else raises a recognition error. -/

/-- External effects used by the resolver: brace expansion, globbing and
filesystem facts, all supplied by the environment. -/
structure ResolveEnv where
  braceexpand : String → List String
  glob : String → List String
  isFile : String → Bool
  isDir : String → Bool
  walkFiles : String → List String

/-- Test mirroring pattern.startswith(("http", "https")) by comparing
character lists (the "https" member of the tuple is redundant because any
string starting with "https" starts with "http"). -/
def startsWithChars : List Char → List Char → Bool
  | [], _ => true
  | _ :: _, [] => false
  | c :: cs, x :: xs => c == x && startsWithChars cs xs

/-- Predicate for the URL branch of the resolver: the pattern starts with "http". -/
def isUrlPattern (p : String) : Bool := startsWithChars "http".data p.data

/-- Paths stage of main: for each pattern, append the pattern itself when it
starts with "http", then (for every nonempty pattern) append the
natural-sorted glob results of every brace expansion. -/
def resolvePaths (env : ResolveEnv) (patterns : List String) : List String :=
  patterns.foldl (fun paths pattern =>
    let paths1 := if isUrlPattern pattern then paths ++ [pattern] else paths
    if pattern = "" then paths1
    else (env.braceexpand pattern).foldl
      (fun acc expr => acc ++ natsorted (env.glob expr)) paths1) []

/-- Resolution error: a path that is neither a file, a URL nor a directory. -/
inductive ResolveErr where
  | notRecognized (path : String)
  deriving DecidableEq, Repr

/-- Candidates stage of main: files and URLs are kept as is, directories are
walked recursively and their files natural-sorted, anything else raises. -/
def buildCandidates (env : ResolveEnv) (paths : List String) :
    Except ResolveErr (List String) :=
  paths.foldlM (fun candidates path =>
    if env.isFile path || isUrlPattern path then
      pure (candidates ++ [path])
    else if env.isDir path then
      pure (candidates ++ natsorted (env.walkFiles path))
    else
      throw (ResolveErr.notRecognized path)) []

/-- Full resolver: the paths stage followed by the candidates stage. -/
def resolveTargets (env : ResolveEnv) (patterns : List String) :
    Except ResolveErr (List String) :=
  buildCandidates env (resolvePaths env patterns)

/-! ## Include and exclude filtering (main, the queue stage)

Each include or exclude pattern is passed through re.escape and then
"\*" is replaced by ".*": every character of the original pattern matches
itself literally except that a star becomes an unrestricted wildcard.
The patterns p1..pn are joined as the single regular expression
"^p1|p2|...|pn$" and tested with re.search.  Because alternation binds
more loosely than the anchors, only the first alternative carries the
start anchor and only the last carries the end anchor. -/

/-- One token of an escaped pattern: a literal character, or the wildcard
obtained from a star. -/
inductive PatTok where
  | lit (c : Char)
  | wild
  deriving DecidableEq, Repr

/-- Token list of re.escape(p).replace("\*", ".*"): every character is a
literal match for itself except a star, which becomes the wildcard. -/
def escapeTokens (p : String) : List PatTok :=
  p.data.map (fun c => if c = '*' then PatTok.wild else PatTok.lit c)

/-- Suffixes of a character list reachable by consuming characters other
than a newline (the dot of ".*" does not match a newline), longest
first. -/
def suffixes : List Char → List (List Char)
  | [] => [[]]
  | x :: xs => (x :: xs) :: (if x = '\n' then [] else suffixes xs)

/-- Whole-sequence match of a token list against a character list: literals
match one equal character, the wildcard matches any run of non-newline
characters (the rest of the tokens must then match the remaining
suffix). -/
def matchesToks : List PatTok → List Char → Bool
  | [], s => s.isEmpty
  | PatTok.lit c :: ts, s =>
    match s with
    | [] => false
    | x :: xs => c == x && matchesToks ts xs
  | PatTok.wild :: ts, s => (suffixes s).any (fun t => matchesToks ts t)

/-- One alternative of the joined regular expression: an optional start
anchor, the pattern tokens, and an optional end anchor. -/
structure Branch where
  anchStart : Bool
  toks : List PatTok
  anchEnd : Bool
  deriving DecidableEq, Repr

/-- Match of a branch at start position i of s: the start anchor forces
i = 0, then some k characters match the tokens, and the end anchor forces
the match to end at the end of s.  (The end anchor of the library would
also match just before a trailing newline; candidates here are paths and
URLs produced by glob, os.walk or the command line, which do not end in a
newline, so that case is not modelled.) -/
def branchMatchAt (b : Branch) (s : List Char) (i : Nat) : Bool :=
  (!b.anchStart || i == 0) &&
  (List.range (s.length - i + 1)).any (fun k =>
    matchesToks b.toks ((s.drop i).take k) && (!b.anchEnd || i + k == s.length))

/-- Search for a branch: re.search tries every start position. -/
def searchBranch (b : Branch) (s : List Char) : Bool :=
  (List.range (s.length + 1)).any (fun i => branchMatchAt b s i)

/-- Search of an alternation of branches: a match of any branch at any
start position. -/
def reSearch (bs : List Branch) (s : List Char) : Bool :=
  (List.range (s.length + 1)).any (fun i => bs.any (fun b => branchMatchAt b s i))

/-- Alternatives after the first in "^p1|p2|...|pn$": the last one carries
the end anchor, the others carry no anchor. -/
def joinedRest : List String → List Branch
  | [] => []
  | [q] => [⟨false, escapeTokens q, true⟩]
  | q :: qs => ⟨false, escapeTokens q, false⟩ :: joinedRest qs

/-- Alternation structure of the regular expression "^" + "|".join(ps) + "$"
built by main from the escaped patterns: with a single pattern the one
alternative is anchored at both ends; with several, the first alternative
carries only the start anchor and the last only the end anchor. -/
def joinedBranches : List String → List Branch
  | [] => [⟨true, [], true⟩]
  | [p] => [⟨true, escapeTokens p, true⟩]
  | p :: rest => ⟨true, escapeTokens p, false⟩ :: joinedRest rest

/-- Filter decision of main for one candidate: kept when the includes list
is empty or the joined include expression search-matches, and the excludes
list is empty or the joined exclude expression does not search-match. -/
def keepCandidate (includes excludes : List String) (c : String) : Bool :=
  (includes.isEmpty || reSearch (joinedBranches includes) c.data) &&
  (excludes.isEmpty || !reSearch (joinedBranches excludes) c.data)

/-- Queue stage of main: keep the candidates that pass the include and
exclude filters, in order. -/
def filterCandidates (includes excludes : List String) (cs : List String) :
    List String :=
  cs.filter (keepCandidate includes excludes)

/-- Claimed semantics of one pattern (from the specification): the pattern
anchored at both the start and the end, that is a whole-string match. -/
def wholeMatch (p : String) (s : List Char) : Prop :=
  matchesToks (escapeTokens p) s = true

/-- Claimed filter semantics (from the specification): kept iff some include
pattern whole-matches, then dropped iff some exclude pattern whole-matches. -/
def specKeep (includes excludes : List String) (c : String) : Prop :=
  (includes = [] ∨ ∃ p ∈ includes, wholeMatch p c.data) ∧
  (excludes = [] ∨ ¬ ∃ p ∈ excludes, wholeMatch p c.data)

instance (includes excludes : List String) (c : String) :
    Decidable (specKeep includes excludes c) := by
  unfold specKeep wholeMatch
  exact inferInstance

/-- Actual semantics of one alternative without anchors: the tokens match
some contiguous substring of s. -/
def subMatch (p : String) (s : List Char) : Prop :=
  ∃ i k, matchesToks (escapeTokens p) ((s.drop i).take k) = true

/-- Actual semantics of the first alternative: the tokens match some
initial segment of s. -/
def headMatch (p : String) (s : List Char) : Prop :=
  ∃ k, k ≤ s.length ∧ matchesToks (escapeTokens p) (s.take k) = true

/-- Actual semantics of the last alternative: the tokens match some final
segment of s. -/
def tailMatch (p : String) (s : List Char) : Prop :=
  ∃ i, matchesToks (escapeTokens p) (s.drop i) = true

/-- Semantics of the alternatives after the first: substring matches for
the middle patterns, a final-segment match for the last. -/
def restSem : List String → List Char → Prop
  | [], _ => False
  | [q], s => tailMatch q s
  | q :: qs, s => subMatch q s ∨ restSem qs s

/-- Semantics of the joined expression "^p1|p2|...|pn$": a whole match for
a single pattern; otherwise an initial-segment match for the first pattern
or the semantics of the remaining alternatives. -/
def altSem : List String → List Char → Prop
  | [], s => s = []
  | [p], s => matchesToks (escapeTokens p) s = true
  | p :: rest, s => headMatch p s ∨ restSem rest s

/-! ## Pages, documents and the writer

A page is modelled by its media box dimensions (WeasyPrint produces pages
whose media box is [0, 0, width, height], so mediaBox[2] and mediaBox[3]
are the width and the height).  Dimensions are rationals, as PDF
coordinates are decimal numbers.  A document is its ordered page list. -/

/-- PDF page, reduced to its media box dimensions. -/
structure Page where
  width : ℚ
  height : ℚ
  deriving DecidableEq, Repr

/-- In-memory document: an ordered sequence of pages. -/
structure Document where
  pages : List Page
  deriving DecidableEq, Repr

/-- Model of write(output, documents): with a nonempty list the pages of
all documents are flattened in order and serialized (the model returns the
serialized page sequence); with an empty list nothing is written and False
is returned (the model returns none). -/
def write (documents : List Document) : Option (List Page) :=
  if documents.isEmpty then none
  else some ((documents.map Document.pages).flatten)

/-! ## Side-by-side concatenation (concatenate)

concatenate(output, inputs) reads the input PDFs, renders one blank page
whose size is taken from mediaBox[2] and mediaBox[3] of the first page of
the first input, and for every index up to the maximum page count merges
the present pages left to right.  mergeTranslatedPage(right, tx, 0,
expand=True) with tx = left.mediaBox[2] places the right page after the
left one and grows the media box to the union, so the merged width is the
sum of the widths and the merged height the maximum of the heights. -/

/-- Merge of one page onto the right edge of another, with expansion:
widths add, heights take the maximum. -/
def mergeTranslated (left right : Page) : Page :=
  ⟨left.width + right.width, max left.height right.height⟩

/-- Page i of a reader, or the blank filler page once the reader has run
out of pages (copy(page) shares the dimensions of the blank page). -/
def pageAt (pages : List Page) (filler : Page) (i : Nat) : Page :=
  if h : i < pages.length then pages.get ⟨i, h⟩ else filler

/-- Model of concatenate: none when the list of inputs is empty or the
first input has no page (getPage(0) would raise); otherwise the output
pages, one for each index below the maximum page count, each obtained by
folding the later inputs onto the first input's page at that index. -/
def concatenate (readers : List (List Page)) : Option (List Page) :=
  match readers with
  | [] => none
  | r0 :: rest =>
    match r0 with
    | [] => none
    | p0 :: ps =>
      let filler : Page := ⟨p0.width, p0.height⟩
      let maxPages := (((p0 :: ps) :: rest).map List.length).foldr max 0
      some ((List.range maxPages).map (fun i =>
        rest.foldl (fun left r => mergeTranslated left (pageAt r filler i))
          (pageAt (p0 :: ps) filler i)))

/-- Composition described by the specification: for every page index below
the maximum page count, the horizontal concatenation of every input's page
at that index, padding exhausted inputs with the filler page. -/
def specComposite (readers : List (List Page)) (filler : Page) : List Page :=
  (List.range ((readers.map List.length).foldr max 0)).map (fun i =>
    match readers.map (fun r => pageAt r filler i) with
    | [] => filler
    | q :: qs => qs.foldl mergeTranslated q)

/-! ## The side-by-side driver path and its temporary files

The side-by-side branch of main creates one temporary file per input with
mkstemp() before rendering that input; a failed render calls cancel(1),
which exits at once.  After concatenate (which creates and removes one
further temporary file of its own) the branch executes the two statements
map(lambda f: os.close(f[0]), temps) and map(lambda f: os.remove(f[1]),
temps).  In Python 3 map builds a lazy iterator; both iterators are
discarded without being consumed, so no close and no remove is executed
for the staging files.  The model records created and removed temporary
files by sequential identifiers. -/

/-- Outcome of the side-by-side branch of main. -/
inductive SbsOutcome where
  | cancelled
  | rendered
  deriving DecidableEq, Repr

/-- Trace of the side-by-side branch: its outcome and the temporary files
created and removed during the run. -/
structure SbsTrace where
  outcome : SbsOutcome
  tempsCreated : List Nat
  tempsRemoved : List Nat
  deriving DecidableEq, Repr

/-- Run of the side-by-side branch for a queue of the given length (2 or
3), where renderOk j tells whether rendering input j yields a document
(render returns None for binary content, upon which main calls cancel(1)).
Each staging temporary is created before its input is rendered; the lazy
map statements at the end execute no close and no remove, so only the
temporary created inside concatenate is ever removed. -/
def sideBySideRun (queueLen : Nat) (renderOk : Nat → Bool) : SbsTrace :=
  if !renderOk 0 then ⟨SbsOutcome.cancelled, [0], []⟩
  else if !renderOk 1 then ⟨SbsOutcome.cancelled, [0, 1], []⟩
  else if queueLen == 3 && !renderOk 2 then ⟨SbsOutcome.cancelled, [0, 1, 2], []⟩
  else
    let staging := if queueLen == 3 then [0, 1, 2] else [0, 1]
    let concatTemp := staging.length
    ⟨SbsOutcome.rendered, staging ++ [concatTemp], [concatTemp]⟩

/-- Temporary files still present at the end of a run: created and never
removed. -/
def leftoverTemps (t : SbsTrace) : List Nat :=
  t.tempsCreated.filter (fun x => !t.tempsRemoved.contains x)

/-! ## Fetching (get) and rendering (render), highlight mode

get(file) reads a local file as bytes and decodes them as UTF-8 with
errors="ignore" (a total, lossy decoding), classifying a missing file as
a not-found error and any other local I/O failure as a read error; a
target starting with "http" goes through the URL pipeline instead, which
is an external effect of the environment.  render(filename, ...) in
highlight mode fetches the text and returns None when it contains a NUL
byte; otherwise the external HTML renderer produces the document. -/

/-- Result of the operating system read of a local file. -/
inductive FsRead where
  | notFound
  | ioError
  | content (bytes : List Nat)
  deriving DecidableEq, Repr

/-- Fetch failure: the error classes raised by get. -/
inductive FetchErr where
  | notFound (target : String)
  | readError (target : String)
  | fetchError (url : String)
  deriving DecidableEq, Repr

/-- Lossy UTF-8 decoding state: continuation bytes still expected, the
code point being accumulated, and the admissible range of the next
continuation byte (the first continuation byte of a sequence is
range-restricted to exclude overlong forms and surrogates). -/
structure Utf8State where
  pending : Nat
  acc : Nat
  lo : Nat
  hi : Nat
  out : List Char

/-- Handling of a byte in lead position: ASCII is emitted, a valid lead
byte opens a sequence, and an invalid byte is ignored (dropped), as the
errors="ignore" handler does. -/
def utf8Lead (out : List Char) (b : Nat) : Utf8State :=
  if b < 0x80 then ⟨0, 0, 0, 0, Char.ofNat b :: out⟩
  else if 0xC2 ≤ b ∧ b ≤ 0xDF then ⟨1, b - 0xC0, 0x80, 0xBF, out⟩
  else if b = 0xE0 then ⟨2, 0, 0xA0, 0xBF, out⟩
  else if 0xE1 ≤ b ∧ b ≤ 0xEC then ⟨2, b - 0xE0, 0x80, 0xBF, out⟩
  else if b = 0xED then ⟨2, 0xD, 0x80, 0x9F, out⟩
  else if 0xEE ≤ b ∧ b ≤ 0xEF then ⟨2, b - 0xE0, 0x80, 0xBF, out⟩
  else if b = 0xF0 then ⟨3, 0, 0x90, 0xBF, out⟩
  else if 0xF1 ≤ b ∧ b ≤ 0xF3 then ⟨3, b - 0xF0, 0x80, 0xBF, out⟩
  else if b = 0xF4 then ⟨3, 4, 0x80, 0x8F, out⟩
  else ⟨0, 0, 0, 0, out⟩

/-- One step of the decoder: inside a sequence a valid continuation byte
is accumulated (emitting the code point when the sequence completes); an
invalid one drops the partial sequence and is reprocessed as a lead. -/
def utf8Step (st : Utf8State) (b : Nat) : Utf8State :=
  if st.pending = 0 then utf8Lead st.out b
  else if st.lo ≤ b ∧ b ≤ st.hi then
    let acc := st.acc * 64 + (b - 0x80)
    if st.pending = 1 then ⟨0, 0, 0, 0, Char.ofNat acc :: st.out⟩
    else ⟨st.pending - 1, acc, 0x80, 0xBF, st.out⟩
  else utf8Lead st.out b

/-- Total lossy UTF-8 decoding of a byte sequence, as bytes.decode("utf-8",
"ignore"): invalid bytes and truncated sequences produce no output and
never raise. -/
def decodeUtf8Ignore (bs : List Nat) : List Char :=
  (bs.foldl utf8Step ⟨0, 0, 0, 0, []⟩).out.reverse

/-- Environment of get: the local filesystem read, and the URL pipeline
(host rewriting plus HTTP GET) as an external effect. -/
structure FetchEnv where
  read : String → FsRead
  getUrl : String → Except FetchErr String

/-- Model of get(file): a target starting with "http" goes through the URL
pipeline; otherwise the local file is read and decoded lossily, a missing
file raises the not-found error and any other failure the read error. -/
def get (env : FetchEnv) (file : String) : Except FetchErr String :=
  if isUrlPattern file then env.getUrl file
  else
    match env.read file with
    | FsRead.notFound => Except.error (FetchErr.notFound file)
    | FsRead.ioError => Except.error (FetchErr.readError file)
    | FsRead.content bs => Except.ok (String.mk (decodeUtf8Ignore bs))

/-- Environment of render in highlight mode: the fetcher and the external
highlighting and HTML-to-PDF pipeline, which yields the document for a
target whose text passed the binary check. -/
structure RenderEnv where
  fetch : String → Except FetchErr String
  rendered : String → Document

/-- Model of render in highlight mode: fetch the text (propagating fetch
errors); return None when the text contains a NUL byte (binary skip);
otherwise the rendered document. -/
def render (env : RenderEnv) (target : String) : Except FetchErr (Option Document) :=
  match env.fetch target with
  | Except.error e => Except.error e
  | Except.ok code =>
    if code.data.contains (Char.ofNat 0) then Except.ok none
    else Except.ok (some (env.rendered target))

/-- Loop of main over the queue with its document accumulator: a fetch
error aborts the run, a None result (binary skip) contributes nothing, a
document is appended. -/
def renderBatchAux (env : RenderEnv) (documents : List Document) :
    List String → Except FetchErr (List Document)
  | [] => Except.ok documents
  | q :: qs =>
    match render env q with
    | Except.error e => Except.error e
    | Except.ok none => renderBatchAux env documents qs
    | Except.ok (some d) => renderBatchAux env (documents ++ [d]) qs

/-- Model of the plain rendering loop of main (no side-by-side): render
each queued target in order, collecting the produced documents. -/
def renderBatch (env : RenderEnv) (queue : List String) :
    Except FetchErr (List Document) :=
  renderBatchAux env [] queue

/-! ## The overwrite prompt of main

With the output file existing and no --force, main raises "Output exists."
when the inputs came from stdin (no positional INPUT argument), and
otherwise prompts in a loop: an answer of y or yes proceeds, n or no
cancels, anything else asks again. -/

/-- Result of the overwrite step of main. -/
inductive OverwriteResult where
  | proceed
  | outputExistsError
  | cancelled
  | noAnswer
  deriving DecidableEq, Repr

/-- Case-folded comparison of an answer with a word, as s.lower() == w. -/
def answerIs (s w : String) : Bool := s.data.map Char.toLower == w.data

/-- Prompt loop of main: each answer is read in turn; y or yes proceeds,
n or no cancels, anything else prompts again; an exhausted answer list
means no further input is available.  The second component counts the
prompts shown. -/
def promptLoop : List String → OverwriteResult × Nat
  | [] => (OverwriteResult.noAnswer, 0)
  | s :: rest =>
    if answerIs s "y" || answerIs s "yes" then (OverwriteResult.proceed, 1)
    else if answerIs s "n" || answerIs s "no" then (OverwriteResult.cancelled, 1)
    else
      let r := promptLoop rest
      (r.1, r.2 + 1)

/-- Model of the overwrite step of main: nothing happens unless the output
exists and --force is absent; then stdin-supplied inputs raise the
output-exists error without any prompt, and otherwise the prompt loop
decides. -/
def overwriteStep (force : Bool) (inputGiven : Bool) (outputExists : Bool)
    (answers : List String) : OverwriteResult × Nat :=
  if !force && outputExists then
    if !inputGiven then (OverwriteResult.outputExistsError, 0)
    else promptLoop answers
  else (OverwriteResult.proceed, 0)

/-! ## Concrete environments used by witnesses and counterexamples -/

/-- Render environment in which the target bin fetches text containing a
NUL byte and every other target fetches plain text. -/
def exRenderEnv : RenderEnv where
  fetch := fun t =>
    if t = "bin" then Except.ok (String.mk [Char.ofNat 0, 'x']) else Except.ok "ok"
  rendered := fun _ => ⟨[⟨612, 792⟩]⟩

/-- Fetch environment with one missing file, one unreadable file, and
otherwise content consisting of an invalid byte followed by the letter A. -/
def exFetchEnv : FetchEnv where
  read := fun t =>
    if t = "missing" then FsRead.notFound
    else if t = "locked" then FsRead.ioError
    else FsRead.content [0xFF, 0x41]
  getUrl := fun u => Except.error (FetchErr.fetchError u)

/-- Resolve environment in which the glob of the pattern http* matches two
local files, returned by the filesystem out of natural order. -/
def exUrlEnv : ResolveEnv where
  braceexpand := fun p => [p]
  glob := fun e => if e = "http*" then ["httpfile2", "httpfile1"] else []
  isFile := fun _ => true
  isDir := fun _ => false
  walkFiles := fun _ => []

/-- Resolve environment with two plain files a and b, each globbed by its
own literal pattern. -/
def exPairEnv : ResolveEnv where
  braceexpand := fun p => [p]
  glob := fun e => if e = "a" then ["a"] else if e = "b" then ["b"] else []
  isFile := fun p => p == "a" || p == "b"
  isDir := fun _ => false
  walkFiles := fun _ => []

/-- Resolve environment with one directory d whose recursive walk returns
three files out of natural order. -/
def exDirEnv : ResolveEnv where
  braceexpand := fun p => [p]
  glob := fun e => if e = "d" then ["d"] else []
  isFile := fun _ => false
  isDir := fun p => p == "d"
  walkFiles := fun p => if p = "d" then ["B", "a10", "a2"] else []

/-- Concrete side-by-side input for the compositor witnesses: a one-page
first input and a two-page second input. -/
def exReaders : List (List Page) := [[⟨10, 20⟩], [⟨5, 20⟩, ⟨7, 30⟩]]

/-- Concrete three-input compositor stack whose third input has no pages. -/
def exThree : List (List Page) := [[⟨2, 5⟩], [⟨3, 5⟩, ⟨4, 6⟩], []]

/-- Output pages of the compositor on exThree (unevaluated form). -/
def exThreeOut : List Page := (concatenate exThree).getD []

/-! ## Helper lemmas -/

/-- Folding list appends equals appending the flattened image. -/
theorem foldl_append_eq {α β : Type} (f : α → List β) (l : List α) (init : List β) :
    l.foldl (fun acc x => acc ++ f x) init = init ++ (l.map f).flatten := by
  induction l generalizing init with
  | nil => simp
  | cons x xs ih => simp [ih]

/-- A pattern starting with "http" is nonempty. -/
theorem isUrlPattern_ne_empty {p : String} (hu : isUrlPattern p = true) : p ≠ "" := by
  intro h
  subst h
  simp [isUrlPattern, startsWithChars] at hu

/-! ## Claim theorems -/

/-- C9: given a nonempty ordered list of documents, write flattens all
their pages in order into one sequence and serializes it, returning the
success indicator; given an empty list it writes nothing and returns the
failure indicator instead of crashing. -/
theorem write_contract (documents : List Document) (h : documents ≠ []) :
    write documents = some (documents.flatMap Document.pages) ∧ write [] = none := by
  constructor
  · simp [write, h, List.flatMap_def]
  · rfl

/-- Witness for C9 at a concrete three-document input. -/
theorem write_contract_witness :
    ([⟨[⟨1, 2⟩]⟩, ⟨[]⟩, ⟨[⟨3, 4⟩]⟩] : List Document) ≠ [] ∧
    write [(⟨[⟨1, 2⟩]⟩ : Document), ⟨[]⟩, ⟨[⟨3, 4⟩]⟩] =
      some (([⟨[⟨1, 2⟩]⟩, ⟨[]⟩, ⟨[⟨3, 4⟩]⟩] : List Document).flatMap Document.pages) ∧
    write [] = none :=
  ⟨List.cons_ne_nil _ _,
   (write_contract [⟨[⟨1, 2⟩]⟩, ⟨[]⟩, ⟨[⟨3, 4⟩]⟩] (List.cons_ne_nil _ _)).1,
   (write_contract [⟨[⟨1, 2⟩]⟩, ⟨[]⟩, ⟨[⟨3, 4⟩]⟩] (List.cons_ne_nil _ _)).2⟩

/-- C1 (code bug): the staging temporary files of the side-by-side path
are never removed.  The two map(...) statements of main build lazy
iterators that are discarded unconsumed, so on a successful two-input run
both staging temporaries remain at the end, and on a failed run (a binary
first input) the already created staging temporary remains as well; only
the temporary created inside concatenate is removed. -/
theorem sideBySide_temps_left :
    leftoverTemps (sideBySideRun 2 (fun _ => true)) = [0, 1] ∧
    (sideBySideRun 2 (fun _ => true)).outcome = SbsOutcome.rendered ∧
    leftoverTemps (sideBySideRun 2 (fun i => i != 0)) = [0] ∧
    (sideBySideRun 2 (fun i => i != 0)).outcome = SbsOutcome.cancelled := by
  decide

/-- Skipping a binary target leaves the batch loop unchanged, for every
accumulator state. -/
theorem renderBatchAux_skip (env : RenderEnv) (t : String)
    (hskip : render env t = Except.ok none) :
    ∀ (q1 q2 : List String) (docs : List Document),
      renderBatchAux env docs (q1 ++ t :: q2) = renderBatchAux env docs (q1 ++ q2) := by
  intro q1
  induction q1 with
  | nil =>
    intro q2 docs
    simp [renderBatchAux, hskip]
  | cons q qs ih =>
    intro q2 docs
    simp only [List.cons_append, renderBatchAux]
    cases render env q with
    | error e => rfl
    | ok od => cases od with
      | none => exact ih q2 docs
      | some d => exact ih q2 (docs ++ [d])

/-- C4: in highlight mode a target whose fetched content contains a NUL
byte renders to no document (a non-fatal skip), and a multi-target batch
containing it produces exactly what the batch without it produces — the
remaining targets are still processed and the run is not aborted. -/
theorem render_binary_skip (env : RenderEnv) (t : String) (s : String)
    (hf : env.fetch t = Except.ok s) (hn : s.data.contains (Char.ofNat 0) = true) :
    render env t = Except.ok none ∧
    ∀ q1 q2 : List String,
      renderBatch env (q1 ++ t :: q2) = renderBatch env (q1 ++ q2) := by
  have hr : render env t = Except.ok none := by
    simp only [render, hf, hn, if_true]
  exact ⟨hr, fun q1 q2 => renderBatchAux_skip env t hr q1 q2 []⟩

/-- Witness for C4: the target bin fetches NUL-containing content; the
batch around it renders as if bin were absent. -/
theorem render_binary_skip_witness :
    exRenderEnv.fetch "bin" = Except.ok (String.mk [Char.ofNat 0, 'x']) ∧
    (String.mk [Char.ofNat 0, 'x']).data.contains (Char.ofNat 0) = true ∧
    render exRenderEnv "bin" = Except.ok none ∧
    renderBatch exRenderEnv (["a"] ++ "bin" :: ["b"]) =
      renderBatch exRenderEnv (["a"] ++ ["b"]) :=
  ⟨rfl, by decide,
   (render_binary_skip exRenderEnv "bin" (String.mk [Char.ofNat 0, 'x']) rfl (by decide)).1,
   (render_binary_skip exRenderEnv "bin" (String.mk [Char.ofNat 0, 'x']) rfl (by decide)).2
     ["a"] ["b"]⟩

/-- C7 counterexample: with inputs from stdin (no positional INPUT), no
--force, and an existing output, main raises the output-exists error and
does not proceed, contradicting the claim that the run proceeds to render
and overwrite in that case. -/
theorem overwrite_stdin_error :
    overwriteStep false false true ["y"] = (OverwriteResult.outputExistsError, 0) ∧
    OverwriteResult.outputExistsError ≠ OverwriteResult.proceed := by
  decide

/-- C7 (amended): with --force the overwrite step proceeds without any
prompt; with inputs from stdin no prompt is shown either, but an existing
output (absent --force) raises the output-exists error instead of
proceeding. -/
theorem overwrite_amended (force inputGiven outputExists : Bool)
    (answers : List String) :
    (force = true →
      overwriteStep force inputGiven outputExists answers = (OverwriteResult.proceed, 0)) ∧
    (inputGiven = false →
      overwriteStep force inputGiven outputExists answers =
        (if force = false ∧ outputExists = true then (OverwriteResult.outputExistsError, 0)
         else (OverwriteResult.proceed, 0))) := by
  constructor
  · rintro rfl
    simp [overwriteStep]
  · rintro rfl
    cases force <;> cases outputExists <;> simp [overwriteStep]

/-- Witness for C7 applying the amended theorem in both cases. -/
theorem overwrite_amended_witness :
    overwriteStep true true true ["n"] = (OverwriteResult.proceed, 0) ∧
    overwriteStep false false true ["y"] = (OverwriteResult.outputExistsError, 0) :=
  ⟨(overwrite_amended true true true ["n"]).1 rfl, by
    have h := (overwrite_amended false false true ["y"]).2 rfl
    simpa using h⟩

/-- C8: for a local-path target (one not routed to the URL pipeline), get
reads the file's bytes and decodes them with the total lossy UTF-8
decoding — every byte content yields a successful result, so decoding
never throws — and fails with the not-found error exactly when the path
does not exist and with the read error exactly on any other local I/O
failure. -/
theorem get_local (env : FetchEnv) (t : String) (h : isUrlPattern t = false) :
    (∀ bs, env.read t = FsRead.content bs →
      get env t = Except.ok (String.mk (decodeUtf8Ignore bs))) ∧
    (get env t = Except.error (FetchErr.notFound t) ↔ env.read t = FsRead.notFound) ∧
    (get env t = Except.error (FetchErr.readError t) ↔ env.read t = FsRead.ioError) := by
  refine ⟨?_, ?_, ?_⟩
  · intro bs hbs
    simp [get, h, hbs]
  · cases hr : env.read t <;> simp [get, h, hr]
  · cases hr : env.read t <;> simp [get, h, hr]

/-- Witness for C8: a content of an invalid byte followed by the letter A
decodes lossily to the one-letter string, and the error classes match the
two failing reads. -/
theorem get_local_witness :
    isUrlPattern "file" = false ∧
    get exFetchEnv "file" = Except.ok "A" ∧
    get exFetchEnv "missing" = Except.error (FetchErr.notFound "missing") ∧
    get exFetchEnv "locked" = Except.error (FetchErr.readError "locked") :=
  ⟨by decide,
   ((get_local exFetchEnv "file" (by decide)).1 [0xFF, 0x41] rfl).trans
     (congrArg Except.ok (by decide)),
   (get_local exFetchEnv "missing" (by decide)).2.1.mpr rfl,
   (get_local exFetchEnv "locked" (by decide)).2.2.mpr rfl⟩

/-- C10: a raw pattern starting with http is appended literally to the
target list, and the same pattern still undergoes brace and glob
expansion, whose (natural-sorted) matches are appended as well. -/
theorem url_also_globbed (env : ResolveEnv) (p : String) (hu : isUrlPattern p = true) :
    resolvePaths env [p] =
      p :: (env.braceexpand p).flatMap (fun e => natsorted (env.glob e)) := by
  have hne : p ≠ "" := isUrlPattern_ne_empty hu
  simp only [resolvePaths, List.foldl_cons, List.foldl_nil, hu, if_true, hne, if_false,
    List.nil_append]
  rw [foldl_append_eq (fun e => natsorted (env.glob e)) (env.braceexpand p) [p]]
  simp [List.flatMap_def]

/-- Witness for C10: the pattern http* is kept literally and its two local
glob matches (returned by the filesystem out of order) follow it in
natural order. -/
theorem url_also_globbed_witness :
    isUrlPattern "http*" = true ∧
    resolvePaths exUrlEnv ["http*"] = ["http*", "httpfile1", "httpfile2"] :=
  ⟨by decide,
   (url_also_globbed exUrlEnv "http*" (by decide)).trans (by decide)⟩

/-- C2: for a side-by-side composition of 2 or 3 inputs with possibly
differing page counts, the output equals the per-index horizontal
composition with exactly the maximum page count many pages, where the
filler page is sized to the first input's first page dimensions and is
used exactly where an input has run out of pages. -/
theorem concatenate_pads (p0 : Page) (ps : List Page) (rest : List (List Page))
    (h2 : 2 ≤ ((p0 :: ps) :: rest).length) (h3 : ((p0 :: ps) :: rest).length ≤ 3) :
    concatenate ((p0 :: ps) :: rest) =
      some (specComposite ((p0 :: ps) :: rest) ⟨p0.width, p0.height⟩) ∧
    (specComposite ((p0 :: ps) :: rest) ⟨p0.width, p0.height⟩).length =
      (((p0 :: ps) :: rest).map List.length).foldr max 0 ∧
    ∀ r ∈ (p0 :: ps) :: rest, ∀ i, r.length ≤ i →
      pageAt r ⟨p0.width, p0.height⟩ i = ⟨p0.width, p0.height⟩ := by
  refine ⟨?_, ?_, ?_⟩
  · simp only [concatenate, specComposite, List.map_cons]
    congr 1
    apply List.map_congr_left
    intro i _
    simp [List.foldl_map]
  · simp [specComposite]
  · intro r _ i hi
    rw [pageAt, dif_neg (by omega)]

/-- Witness for C2 at a two-input stack whose second input is one page
longer than the first; the maximum page count evaluates to 2. -/
theorem concatenate_pads_witness :
    2 ≤ ([[(⟨10, 20⟩ : Page)], [⟨5, 20⟩, ⟨7, 30⟩]] : List (List Page)).length ∧
    ([[(⟨10, 20⟩ : Page)], [⟨5, 20⟩, ⟨7, 30⟩]] : List (List Page)).length ≤ 3 ∧
    (([[(⟨10, 20⟩ : Page)], [⟨5, 20⟩, ⟨7, 30⟩]] : List (List Page)).map
      List.length).foldr max 0 = 2 ∧
    (concatenate [[(⟨10, 20⟩ : Page)], [⟨5, 20⟩, ⟨7, 30⟩]] =
      some (specComposite [[(⟨10, 20⟩ : Page)], [⟨5, 20⟩, ⟨7, 30⟩]] ⟨10, 20⟩) ∧
    (specComposite [[(⟨10, 20⟩ : Page)], [⟨5, 20⟩, ⟨7, 30⟩]] ⟨10, 20⟩).length =
      (([[(⟨10, 20⟩ : Page)], [⟨5, 20⟩, ⟨7, 30⟩]] : List (List Page)).map
        List.length).foldr max 0 ∧
    ∀ r ∈ ([[(⟨10, 20⟩ : Page)], [⟨5, 20⟩, ⟨7, 30⟩]] : List (List Page)), ∀ i,
      r.length ≤ i → pageAt r ⟨10, 20⟩ i = ⟨10, 20⟩) :=
  ⟨by decide, by decide, by decide,
   concatenate_pads ⟨10, 20⟩ [] [[⟨5, 20⟩, ⟨7, 30⟩]] (by decide) (by decide)⟩

/-- C6: in a three-input composite, the width of every output page is the
sum of the three input page widths at that index, with the filler page's
width standing in for an exhausted input. -/
theorem concatenate_width_sum (p0 : Page) (ps B C : List Page) (out : List Page)
    (hout : concatenate [p0 :: ps, B, C] = some out) (i : Nat) (hi : i < out.length) :
    out[i]?.map Page.width =
      some ((pageAt (p0 :: ps) ⟨p0.width, p0.height⟩ i).width +
        (pageAt B ⟨p0.width, p0.height⟩ i).width +
        (pageAt C ⟨p0.width, p0.height⟩ i).width) := by
  simp only [concatenate] at hout
  injection hout with h
  subst h
  rw [List.getElem?_eq_getElem hi]
  simp only [List.getElem_map, List.getElem_range, List.foldl_cons, List.foldl_nil,
    Option.map_some]
  simp [mergeTranslated]

/-- Witness for C6 at a concrete three-input stack whose third input has
no pages: page index 1 exists, and its width is the sum with the filler
standing in for the exhausted first and third inputs. -/
theorem concatenate_width_sum_witness :
    concatenate exThree = some exThreeOut ∧
    1 < exThreeOut.length ∧
    pageAt ([] : List Page) (⟨2, 5⟩ : Page) 1 = ⟨2, 5⟩ ∧
    exThreeOut[1]?.map Page.width =
      some ((pageAt [(⟨2, 5⟩ : Page)] ⟨2, 5⟩ 1).width +
        (pageAt [(⟨3, 5⟩ : Page), ⟨4, 6⟩] ⟨2, 5⟩ 1).width +
        (pageAt ([] : List Page) ⟨2, 5⟩ 1).width) :=
  ⟨rfl, by decide, by simp [pageAt],
   concatenate_width_sum ⟨2, 5⟩ [] [⟨3, 5⟩, ⟨4, 6⟩] [] exThreeOut rfl 1 (by decide)⟩

/-- Folding with pointwise equal step functions gives equal results. -/
theorem foldl_congr_fn {α β : Type} (f g : β → α → β) (h : ∀ b a, f b a = g b a)
    (init : β) (l : List α) : l.foldl f init = l.foldl g init := by
  induction l generalizing init with
  | nil => rfl
  | cons x xs ih => simp only [List.foldl_cons, h, ih]

/-- The paths stage of main decomposes per pattern: the literal URL part
in encounter order, followed by the natural-sorted glob results of each
brace alternative, segments concatenated in encounter order. -/
theorem resolvePaths_eq_flatten (env : ResolveEnv) (patterns : List String) :
    resolvePaths env patterns =
      (patterns.map (fun p =>
        (if isUrlPattern p then [p] else []) ++
        (if p = "" then [] else (env.braceexpand p).flatMap
          (fun e => natsorted (env.glob e))))).flatten := by
  have hstep : ∀ (paths : List String) (pattern : String),
      (let paths1 := if isUrlPattern pattern then paths ++ [pattern] else paths
       if pattern = "" then paths1
       else (env.braceexpand pattern).foldl
         (fun acc expr => acc ++ natsorted (env.glob expr)) paths1)
      = paths ++ ((if isUrlPattern pattern then [pattern] else []) ++
          (if pattern = "" then [] else (env.braceexpand pattern).flatMap
            (fun e => natsorted (env.glob e)))) := by
    intro paths pattern
    by_cases he : pattern = ""
    · subst he
      simp [isUrlPattern, startsWithChars]
    · rcases Bool.eq_false_or_eq_true (isUrlPattern pattern) with hu | hu <;>
        simp [hu, he, foldl_append_eq, List.flatMap_def]
  unfold resolvePaths
  rw [foldl_congr_fn _ _ hstep]
  rw [foldl_append_eq]
  simp

/-- C5 counterexample: with two literal patterns b and a naming existing
files, the resolved target order is [b, a], which is not natural-sorted,
so the resolved order as a whole is not the natural-sort order. -/
theorem resolve_not_sorted :
    resolveTargets exPairEnv ["b", "a"] = Except.ok ["b", "a"] ∧
    ¬ List.Sorted natLe ["b", "a"] := by
  constructor
  · rfl
  · decide

/-- C5 (amended): the resolver natural-sorts case-insensitively within
each glob expansion of each brace alternative and within each directory
walk, whatever order the filesystem returns entries (the sorted segment
is a permutation of the filesystem's list); the segments themselves, and
literal URL targets, are appended in pattern encounter order and URLs are
never sorted with files, so the overall order need not be globally
sorted. -/
theorem resolve_order (env : ResolveEnv) (patterns : List String) :
    resolvePaths env patterns =
      (patterns.map (fun p =>
        (if isUrlPattern p then [p] else []) ++
        (if p = "" then [] else (env.braceexpand p).flatMap
          (fun e => natsorted (env.glob e))))).flatten ∧
    (∀ l : List String, List.Sorted natLe (natsorted l) ∧ (natsorted l).Perm l) ∧
    (∀ d : String, env.isFile d = false → isUrlPattern d = false →
      env.isDir d = true →
      buildCandidates env [d] = Except.ok (natsorted (env.walkFiles d))) := by
  refine ⟨resolvePaths_eq_flatten env patterns, ?_, ?_⟩
  · intro l
    exact ⟨List.sorted_insertionSort natLe l, List.perm_insertionSort natLe l⟩
  · intro d hf hu hd
    simp [buildCandidates, hf, hu, hd]
    rfl

/-- Witness for C5: the concrete resolutions evaluate as the amended
statement describes, and the natural sort orders a directory walk
case-insensitively and numerically. -/
theorem resolve_order_witness :
    resolvePaths exPairEnv ["b", "a"] = ["b", "a"] ∧
    List.Sorted natLe (natsorted ["b", "a"]) ∧
    (natsorted ["b", "a"]).Perm ["b", "a"] ∧
    exDirEnv.isFile "d" = false ∧ isUrlPattern "d" = false ∧ exDirEnv.isDir "d" = true ∧
    buildCandidates exDirEnv ["d"] = Except.ok (natsorted (exDirEnv.walkFiles "d")) ∧
    natsorted ["B", "a10", "a2"] = ["a2", "a10", "B"] :=
  ⟨(resolve_order exPairEnv ["b", "a"]).1.trans (by decide),
   ((resolve_order exPairEnv ["b", "a"]).2.1 ["b", "a"]).1,
   ((resolve_order exPairEnv ["b", "a"]).2.1 ["b", "a"]).2,
   by decide, by decide, by decide,
   (resolve_order exDirEnv []).2.2 "d" (by decide) (by decide) (by decide),
   by decide⟩

/-- Search of an alternation tries each branch at each position. -/
theorem reSearch_eq_any (bs : List Branch) (s : List Char) :
    reSearch bs s = bs.any (fun b => searchBranch b s) := by
  rw [Bool.eq_iff_iff]
  simp only [reSearch, searchBranch, List.any_eq_true, List.mem_range]
  tauto

/-- A branch anchored at both ends search-matches exactly on a whole
match. -/
theorem searchBranch_whole (ts : List PatTok) (s : List Char) :
    searchBranch ⟨true, ts, true⟩ s = true ↔ matchesToks ts s = true := by
  simp only [searchBranch, branchMatchAt, List.any_eq_true, List.mem_range,
    Bool.not_true, Bool.false_or, Bool.and_eq_true, beq_iff_eq]
  constructor
  · rintro ⟨i, hi, hi0, k, hk, hm, hend⟩
    subst hi0
    have hk2 : k = s.length := by omega
    subst hk2
    simpa [List.take_length] using hm
  · intro hm
    exact ⟨0, by omega, rfl, s.length, by omega,
      by simpa [List.take_length] using hm, by omega⟩

/-- A branch anchored only at the start search-matches exactly on an
initial-segment match. -/
theorem searchBranch_start (ts : List PatTok) (s : List Char) :
    searchBranch ⟨true, ts, false⟩ s = true ↔
      ∃ k, k ≤ s.length ∧ matchesToks ts (s.take k) = true := by
  simp only [searchBranch, branchMatchAt, List.any_eq_true, List.mem_range,
    Bool.not_true, Bool.false_or, Bool.not_false, Bool.true_or, Bool.and_true,
    Bool.and_eq_true, beq_iff_eq]
  constructor
  · rintro ⟨i, hi, hi0, k, hk, hm⟩
    subst hi0
    rw [List.drop_zero] at hm
    exact ⟨k, by omega, hm⟩
  · rintro ⟨k, hk, hm⟩
    exact ⟨0, by omega, rfl, k, by omega, by simpa using hm⟩

/-- A branch anchored only at the end search-matches exactly on a
final-segment match. -/
theorem searchBranch_end (ts : List PatTok) (s : List Char) :
    searchBranch ⟨false, ts, true⟩ s = true ↔
      ∃ i, matchesToks ts (s.drop i) = true := by
  simp only [searchBranch, branchMatchAt, List.any_eq_true, List.mem_range,
    Bool.not_false, Bool.true_or, Bool.true_and, Bool.not_true, Bool.false_or,
    Bool.and_eq_true, beq_iff_eq]
  constructor
  · rintro ⟨i, hi, k, hk, hm, hend⟩
    refine ⟨i, ?_⟩
    have htake : (s.drop i).take k = s.drop i := by
      apply List.take_of_length_le
      rw [List.length_drop]
      omega
    rwa [htake] at hm
  · rintro ⟨i, hm⟩
    have hdrop : s.drop (min i s.length) = s.drop i := by
      rcases Nat.le_total i s.length with h | h
      · rw [Nat.min_eq_left h]
      · rw [Nat.min_eq_right h, List.drop_length, List.drop_of_length_le h]
    have htake : (s.drop i).take (s.length - min i s.length) = s.drop i := by
      apply List.take_of_length_le
      rw [List.length_drop]
      omega
    refine ⟨min i s.length, by omega, s.length - min i s.length, by omega, ?_, by omega⟩
    rw [hdrop, htake]
    exact hm

/-- An unanchored branch search-matches exactly on a substring match. -/
theorem searchBranch_mid (ts : List PatTok) (s : List Char) :
    searchBranch ⟨false, ts, false⟩ s = true ↔
      ∃ i k, matchesToks ts ((s.drop i).take k) = true := by
  simp only [searchBranch, branchMatchAt, List.any_eq_true, List.mem_range,
    Bool.not_false, Bool.true_or, Bool.true_and, Bool.and_true, Bool.and_eq_true]
  constructor
  · rintro ⟨i, hi, k, hk, hm⟩
    exact ⟨i, k, hm⟩
  · rintro ⟨i, k, hm⟩
    have hdrop : s.drop (min i s.length) = s.drop i := by
      rcases Nat.le_total i s.length with h | h
      · rw [Nat.min_eq_left h]
      · rw [Nat.min_eq_right h, List.drop_length, List.drop_of_length_le h]
    have htake : (s.drop i).take (min k (s.drop i).length) = (s.drop i).take k := by
      rw [List.take_eq_take]
      simp
    refine ⟨min i s.length, by omega, min k ((s.drop i).length), ?_, ?_⟩
    · rw [List.length_drop]
      omega
    · rw [hdrop, htake]
      exact hm

/-- Semantics of the alternatives after the first: substring match for the
middle ones, final-segment match for the last. -/
theorem joinedRest_sem (s : List Char) :
    ∀ qs : List String, qs ≠ [] →
      ((joinedRest qs).any (fun b => searchBranch b s) = true ↔ restSem qs s) := by
  intro qs
  induction qs with
  | nil => intro h; exact absurd rfl h
  | cons q qs ih =>
    intro _
    cases qs with
    | nil =>
      simp only [joinedRest, List.any_cons, List.any_nil, Bool.or_false]
      exact searchBranch_end (escapeTokens q) s
    | cons q2 qs2 =>
      simp only [joinedRest, List.any_cons, Bool.or_eq_true, restSem]
      exact or_congr (searchBranch_mid (escapeTokens q) s)
        (ih (List.cons_ne_nil q2 qs2))

/-- Semantics of the joined expression: search of "^p1|p2|...|pn$" is the
initial-segment, substring, final-segment disjunction (a whole match when
only one pattern is present). -/
theorem reSearch_joined (ps : List String) (s : List Char) :
    reSearch (joinedBranches ps) s = true ↔ altSem ps s := by
  match ps with
  | [] =>
    rw [reSearch_eq_any]
    simp only [joinedBranches, List.any_cons, List.any_nil, Bool.or_false]
    rw [searchBranch_whole]
    show matchesToks [] s = true ↔ altSem [] s
    simp [matchesToks, altSem, List.isEmpty_iff]
  | [p] =>
    rw [reSearch_eq_any]
    simp only [joinedBranches, List.any_cons, List.any_nil, Bool.or_false]
    exact searchBranch_whole (escapeTokens p) s
  | p :: q :: rest =>
    rw [reSearch_eq_any]
    simp only [joinedBranches, List.any_cons, Bool.or_eq_true, altSem]
    exact or_congr (searchBranch_start (escapeTokens p) s)
      (joinedRest_sem s (q :: rest) (List.cons_ne_nil q rest))

/-- Negation of a boolean equals true exactly when the boolean is not
true. -/
theorem bool_not_eq_true (r : Bool) : ((!r) = true ↔ ¬ (r = true)) := by
  cases r <;> simp

/-- C3 counterexample: with include patterns a and b, the candidate ax is
kept by the code (the joined expression "^a|b$" search-matches it at the
start), yet ax whole-matches neither pattern, so the claimed two-sided
anchoring of every include pattern is false. -/
theorem filter_counterexample :
    filterCandidates ["a", "b"] [] ["ax"] = ["ax"] ∧
    ¬ specKeep ["a", "b"] [] "ax" := by
  constructor
  · decide
  · decide

/-- C3 (amended): a candidate is kept iff the joined include expression
"^p1|...|pn$" search-matches the path — only the first alternative is
anchored at the start and only the last at the end, so this means: some
initial segment matches the first pattern, or some substring matches a
middle pattern, or some final segment matches the last pattern (a whole
match only when a single pattern is given) — and, when excludes are
present, the joined exclude expression does not search-match under the
same semantics. -/
theorem filter_amended (includes excludes : List String) (c : String)
    (h1 : includes ≠ []) :
    keepCandidate includes excludes c = true ↔
      (altSem includes c.data ∧ (excludes = [] ∨ ¬ altSem excludes c.data)) := by
  have hinc : (includes.isEmpty || reSearch (joinedBranches includes) c.data) = true
      ↔ altSem includes c.data := by
    rw [Bool.or_eq_true, List.isEmpty_iff, reSearch_joined]
    simp [h1]
  have hexc : (excludes.isEmpty || !reSearch (joinedBranches excludes) c.data) = true
      ↔ (excludes = [] ∨ ¬ altSem excludes c.data) := by
    rw [Bool.or_eq_true, List.isEmpty_iff, bool_not_eq_true, reSearch_joined]
  unfold keepCandidate
  rw [Bool.and_eq_true, hinc, hexc]

/-- Witness for C3 applying the amended theorem: with includes [a, b] and
exclude [x], the candidate ax is kept, in accordance with the joined
search semantics. -/
theorem filter_amended_witness :
    (["a", "b"] : List String) ≠ [] ∧
    (keepCandidate ["a", "b"] ["x"] "ax" = true ↔
      (altSem ["a", "b"] "ax".data ∧
        ((["x"] : List String) = [] ∨ ¬ altSem ["x"] "ax".data))) ∧
    keepCandidate ["a", "b"] ["x"] "ax" = true :=
  ⟨by decide, filter_amended ["a", "b"] ["x"] "ax" (by decide), by decide⟩

end RenderPdf
